import Mathlib

/-!
Verification of the OSINT result-aggregation pipeline of this repository
(`RedditUltraSearchService`): URL normalization, deduplication, confidence
scoring, quality filtering, ranking, the variation generator and the
option-driven result shaping of `searchWithAdvancedOptions`.

The JavaScript source is shallowly embedded:
* JS strings are `String`; the ASCII case maps of `.toLowerCase()` /
  `.toUpperCase()` are modelled per character (the data of this program is
  ASCII identifiers and URLs);
* JS numbers are exact rationals `ℚ` (the pipeline only adds, subtracts,
  multiplies and divides small quantities; no float-rounding behaviour is
  relied on by any property verified here);
* the `metadata` object of a result/link is flattened into the fields of
  `Link` that the pipeline reads (`redditSource`, `mergedSources`,
  `searchMethod`, `isInviteLink`); fields such as `title`, `description`
  or the enrichment block, which no verified stage reads, are omitted;
* a JS `Map` keyed by string is an association list in key-insertion order
  (`Map.set` on a present key keeps its position, as in JS);
* `Array.prototype.sort` with a consistent comparator is the stable sort of
  ECMAScript 2019+, modelled by `List.insertionSort` with the non-strict
  precedence relation "comparator ≤ 0" (insertion sort with a non-strict
  total preorder is stable, see the stability theorem below).
-/

/-! ## JS string primitives over character lists -/

/-- JS `s.toLowerCase()` for ASCII data: `Char.toLower` on every character. -/
def jsToLower (s : String) : String := String.mk (s.toList.map Char.toLower)

/-- JS `s.toUpperCase()` for ASCII data. -/
def jsToUpper (s : String) : String := String.mk (s.toList.map Char.toUpper)

/-- Does `l` start with `sub`? -/
def startsWithChars : List Char → List Char → Bool
  | _, [] => true
  | [], _ :: _ => false
  | c :: cs, d :: ds => c = d && startsWithChars cs ds

/-- Does `l` contain `sub` as a contiguous run? (JS `String.prototype.includes`:
the empty string is contained in everything.) -/
def containsChars : List Char → List Char → Bool
  | [], sub => sub.isEmpty
  | c :: cs, sub => startsWithChars (c :: cs) sub || containsChars cs sub

/-- JS `s.includes(sub)`. -/
def jsIncludes (s sub : String) : Bool := containsChars s.toList sub.toList

/-- `capitalizeFirst` (part_001 line 406): JS
`str.charAt(0).toUpperCase() + str.slice(1).toLowerCase()`. -/
def capitalizeFirst (str : String) : String :=
  match str.toList with
  | [] => ""
  | c :: rest => String.mk (c.toUpper :: rest.map Char.toLower)

/-! ## Data model

`RedditSource` is the `redditSource` provenance record the extraction
methods attach to every link (part_001 lines 1457–1463, 1492–1498,
1202–1208); `Link` is a Telegram-link candidate as produced by extraction
and consumed by deduplication, scoring, filtering and ranking. -/

structure RedditSource where
  postUrl : String
  postTitle : String
  subreddit : String
  redditScore : Int
  foundIn : String
deriving DecidableEq, Repr

structure Link where
  url : String
  username : String
  confidence : ℚ
  searchMethod : String
  isInviteLink : Bool
  redditSource : RedditSource
  mergedSources : List RedditSource
deriving DecidableEq, Repr

/-- The provenance of a candidate: its own source record followed by every
merged-in source record. -/
def provenance (l : Link) : List RedditSource := l.redditSource :: l.mergedSources

/-! ## URL normalization (part_001 lines 1430–1435)

JS: `url.toLowerCase().replace(/^https?:\/\//, '').replace(/^www\./, '')
.replace(/\/$/, '')` — lowercase, then strip one leading `http://` or
`https://`, one leading `www.`, and one trailing slash. -/

def normalizeTelegramUrl (url : String) : String :=
  let cs := (jsToLower url).toList
  let cs := if startsWithChars cs "https://".toList then cs.drop 8
    else if startsWithChars cs "http://".toList then cs.drop 7
    else cs
  let cs := if startsWithChars cs "www.".toList then cs.drop 4 else cs
  let cs := if cs.getLast? = some '/' then cs.dropLast else cs
  String.mk cs

/-- The merge key of `ultraIntelligentDeduplication`:
`this.normalizeTelegramUrl(link.url).toLowerCase()` (part_001 lines
1224–1225). -/
def normKey (l : Link) : String := jsToLower (normalizeTelegramUrl l.url)

/-! ## Deduplication (part_001 lines 1220–1244) -/

/-- The collision body of `ultraIntelligentDeduplication`: when the incoming
`link` has strictly higher confidence it survives, taking over the resident
`existing`'s merged sources plus the resident's own source record
(`link.metadata.mergedSources = existing.metadata.mergedSources || [];
link.metadata.mergedSources.push(existing.metadata.redditSource)`);
otherwise the resident survives and the incoming link's own source record is
appended to the resident's merged sources. Note the assignment overwrites
whatever `mergedSources` the incoming link itself carried. -/
def mergeLinks (existing link : Link) : Link :=
  if existing.confidence < link.confidence then
    { link with mergedSources := existing.mergedSources ++ [existing.redditSource] }
  else
    { existing with mergedSources := existing.mergedSources ++ [link.redditSource] }

/-- `Map.get` of the key-insertion-ordered map. -/
def findLink (key : String) : List (String × Link) → Option Link
  | [] => none
  | kv :: rest => if kv.1 = key then some kv.2 else findLink key rest

/-- `Map.set` on a present key: replaces the value in place (JS `Map.set`
keeps the original insertion position); appends when the key is new. -/
def setLink (key : String) (v : Link) : List (String × Link) → List (String × Link)
  | [] => [(key, v)]
  | kv :: rest => if kv.1 = key then (key, v) :: rest else kv :: setLink key v rest

/-- One iteration of the `links.forEach` body of
`ultraIntelligentDeduplication`. -/
def dedupeStep (acc : List (String × Link)) (link : Link) : List (String × Link) :=
  let key := normKey link
  match findLink key acc with
  | some existing => setLink key (mergeLinks existing link) acc
  | none => acc ++ [(key, link)]

/-- `ultraIntelligentDeduplication` (part_001 lines 1220–1244):
fold the links into a `Map` keyed by normalized URL and return
`Array.from(uniqueLinks.values())`, i.e. the values in key-insertion order. -/
def ultraIntelligentDeduplication (links : List Link) : List Link :=
  (links.foldl dedupeStep []).map Prod.snd

/-! ## Username similarity (part_001 lines 1378–1416) -/

/-- `levenshteinDistance` (part_001 lines 1390–1416). The source fills the
standard dynamic-programming matrix `matrix[i][j] = ` edit distance between
the first `j` characters of `str1` and the first `i` characters of `str2`;
this is the same function written as the standard recurrence on suffixes
(unit cost for insertion, deletion and substitution, zero cost on matching
heads). -/
def levenshteinDistance : List Char → List Char → Nat
  | [], ys => ys.length
  | x :: xs, [] => (x :: xs).length
  | x :: xs, y :: ys =>
    if x = y then levenshteinDistance xs ys
    else 1 + min (levenshteinDistance xs ys)
      (min (levenshteinDistance (x :: xs) ys) (levenshteinDistance xs (y :: ys)))
termination_by xs ys => xs.length + ys.length
decreasing_by all_goals simp_arith

/-- `calculateUsernameSimilarity` (part_001 lines 1378–1388): 1.0 on equal
lowercased names, 0.8 when one contains the other, else
`max(0, (maxLen - distance) / maxLen)`. -/
def calculateUsernameSimilarity (username1 username2 : String) : ℚ :=
  let u1 := jsToLower username1
  let u2 := jsToLower username2
  if u1 = u2 then 1
  else if jsIncludes u1 u2 || jsIncludes u2 u1 then 4/5
  else
    let maxLen : Nat := max u1.length u2.length
    let distance : Nat := levenshteinDistance u1.toList u2.toList
    max 0 (((maxLen : ℚ) - (distance : ℚ)) / (maxLen : ℚ))

/-! ## Confidence scoring -/

/-- The clamp `Math.min(Math.max(confidence, 0), 100)` shared by every
scoring function. -/
def clampConfidence (c : ℚ) : ℚ := min (max c 0) 100

/-- The Reddit-score tier bonuses of `ultraAdvancedScoring` (part_001 lines
1253–1256): `>10 → +10`, `>50 → +15`, `>200 → +20`, cumulative. -/
def popularityContribution (redditScore : Int) : ℚ :=
  (if 10 < redditScore then 10 else 0) + (if 50 < redditScore then 15 else 0) +
    (if 200 < redditScore then 20 else 0)

/-- The subreddit-specialization bonuses of `ultraAdvancedScoring` (part_001
lines 1258–1260): `includes('telegram') → +25`, `includes('crypto') → +15`. -/
def specializationContribution (foundIn : String) : ℚ :=
  let subreddit := jsToLower foundIn
  (if jsIncludes subreddit "telegram" then 25 else 0) +
    (if jsIncludes subreddit "crypto" then 15 else 0)

/-- The `searchMethod` switch of `ultraAdvancedScoring` (part_001 lines
1262–1267). -/
def methodContribution (searchMethod : String) : ℚ :=
  if searchMethod = "direct_extraction" then 20
  else if searchMethod = "pattern_match" then 15
  else if searchMethod = "reverse_search" then 10
  else if searchMethod = "inference" then 5
  else 0

/-- Magnitude of the scam/fake keyword penalty of `ultraAdvancedScoring`
(part_001 line 1277). -/
def scamFakePenalty : ℚ := 25

/-- The post-title keyword scan of `ultraAdvancedScoring` (part_001 lines
1274–1277): `official → +15`, `verified → +15`, `scam` or `fake` → `-25`. -/
def contextContribution (postTitle : String) : ℚ :=
  let context := jsToLower postTitle
  (if jsIncludes context "official" then 15 else 0) +
    (if jsIncludes context "verified" then 15 else 0) +
    (if jsIncludes context "scam" || jsIncludes context "fake" then -scamFakePenalty else 0)

/-- The per-link body of `ultraAdvancedScoring` (part_001 lines 1246–1282).
`link.confidence || 50` makes a zero (or missing) confidence restart at the
base 50. -/
def scoreLink (searchUsername : String) (link : Link) : Link :=
  let confidence : ℚ := if link.confidence = 0 then 50 else link.confidence
  let confidence := confidence + calculateUsernameSimilarity link.username searchUsername * 30
  let confidence := confidence + popularityContribution link.redditSource.redditScore
  let confidence := confidence + specializationContribution link.redditSource.foundIn
  let confidence := confidence + methodContribution link.searchMethod
  let confidence := if !link.isInviteLink then confidence + 10 else confidence
  let confidence := confidence + (link.mergedSources.length : ℚ) * 5
  let confidence := confidence + contextContribution link.redditSource.postTitle
  { link with confidence := clampConfidence confidence }

/-- `ultraAdvancedScoring` (part_001 lines 1246–1282): rescore every link. -/
def ultraAdvancedScoring (links : List Link) (searchUsername : String) : List Link :=
  links.map (scoreLink searchUsername)

/-- The fields of a Reddit post/comment record that
`calculateBasicConfidence` reads. -/
structure PostData where
  score : Int
  num_comments : Int
  subreddit : String
deriving DecidableEq, Repr

/-- `calculateBasicConfidence` (part_001 lines 657–678): base 50, score-tier
and comment-tier bonuses, subreddit bonuses, a −20 malus for a negative
score, clamped to [0, 100]. (The source's unused `username` parameter is
dropped.) -/
def calculateBasicConfidence (data : PostData) : ℚ :=
  let confidence : ℚ := 50
  let confidence := if 10 < data.score then confidence + 10 else confidence
  let confidence := if 50 < data.score then confidence + 15 else confidence
  let confidence := if 100 < data.score then confidence + 20 else confidence
  let confidence := if 5 < data.num_comments then confidence + 5 else confidence
  let confidence := if 20 < data.num_comments then confidence + 10 else confidence
  let subreddit := jsToLower data.subreddit
  let confidence := if jsIncludes subreddit "telegram" then confidence + 25 else confidence
  let confidence := if jsIncludes subreddit "crypto" then confidence + 15 else confidence
  let confidence := if data.score < 0 then confidence - 20 else confidence
  clampConfidence confidence

/-- `patternBonuses` of `calculateAdvancedConfidence` (part_001 line 1506). -/
def patternBonuses : List ℚ := [25, 25, 30, 30, 15, 20, 20, 10, 15, 10]

/-- `calculateAdvancedConfidence` (part_001 lines 1503–1517). `sourceScore`
stands for `sourceResult.metadata?.score || 0`; an out-of-range
`patternIndex` contributes the fallback 10 (`patternBonuses[patternIndex]
|| 10`; no listed bonus is zero, so `getD` is the same function). -/
def calculateAdvancedConfidence (extractedUsername : String) (sourceScore : Int)
    (searchUsername : String) (patternIndex : Nat) : ℚ :=
  let confidence : ℚ := 50
  let confidence := confidence + patternBonuses.getD patternIndex 10
  let confidence := confidence +
    calculateUsernameSimilarity extractedUsername searchUsername * 30
  let confidence := confidence + (if 10 < sourceScore then 10 else 0)
  let confidence := confidence + (if 50 < sourceScore then 15 else 0)
  clampConfidence confidence

/-! ## Quality filter (part_001 lines 1284–1293, 1422–1428, 472–481) -/

/-- The stoplist of `isCommonWord` (part_001 lines 472–481). -/
def commonWords : List String :=
  ["telegram", "channel", "group", "admin", "support", "help",
   "about", "contact", "join", "invite", "link", "chat",
   "the", "and", "for", "are", "with", "this", "that",
   "news", "info", "update", "post", "share", "here", "there",
   "official", "main", "real", "true", "new", "old"]

/-- `isCommonWord` (part_001 lines 472–481). -/
def isCommonWord (word : String) : Bool := commonWords.contains (jsToLower word)

/-- The suspicious-name list of `isSuspiciousUsername` (part_001 lines
1423–1426). -/
def suspiciousNames : List String :=
  ["admin", "support", "help", "bot", "official",
   "scam", "fake", "test", "example", "sample"]

/-- `isSuspiciousUsername` (part_001 lines 1422–1428). -/
def isSuspiciousUsername (username : String) : Bool :=
  suspiciousNames.contains (jsToLower username)

/-- `ultraQualityFilter` (part_001 lines 1284–1293): the early-return chain
of the source's filter callback. (`!link.username` is falsy exactly for the
empty string in this model.) -/
def ultraQualityFilter (links : List Link) (searchUsername : String) : List Link :=
  links.filter fun link =>
    if link.confidence < 30 then false
    else if link.username = "" || link.username.length < 5 then false
    else if isCommonWord link.username then false
    else if isSuspiciousUsername link.username then false
    else true

/-- The quality filter as §4.6 of the specification words it: confidence at
least 30, username of length at least 5, not a common word, not suspicious. -/
def specQualityPred (link : Link) : Bool :=
  decide (30 ≤ link.confidence) && decide (5 ≤ link.username.length) &&
    !isCommonWord link.username && !isSuspiciousUsername link.username

/-! ## Ranking (part_001 lines 1295–1314) -/

/-- Does the link's username equal the search username case-insensitively
(the first comparator key)? -/
def exactNameMatch (searchUsername : String) (l : Link) : Bool :=
  jsToLower l.username == jsToLower searchUsername

/-- `a.metadata?.redditSource?.redditScore || 0`: the Reddit score of the
first provenance entry (the link's own source record). -/
def firstSourceScore (l : Link) : Int := l.redditSource.redditScore

/-- `(a.metadata?.mergedSources?.length || 0) + 1`: the corroboration count
used as the last comparator key. -/
def sourceCount (l : Link) : Nat := l.mergedSources.length + 1

/-- The comparator of `ultraIntelligentRanking` (part_001 lines 1296–1313):
exact-match first, then descending confidence, then descending Reddit score,
then descending source count; returns a negative number when `a` must come
before `b`, positive for after, zero on a full tie. -/
def rankComparator (searchUsername : String) (a b : Link) : ℚ :=
  let aExact := exactNameMatch searchUsername a
  let bExact := exactNameMatch searchUsername b
  if aExact && !bExact then -1
  else if !aExact && bExact then 1
  else if a.confidence ≠ b.confidence then b.confidence - a.confidence
  else if firstSourceScore a ≠ firstSourceScore b then
    ((firstSourceScore b - firstSourceScore a : Int) : ℚ)
  else ((sourceCount b : Int) - (sourceCount a : Int) : Int)

/-- The non-strict precedence relation the comparator induces: `a` may stand
no later than `b`. -/
def rankLe (searchUsername : String) (a b : Link) : Prop :=
  rankComparator searchUsername a b ≤ 0

instance rankLeDecidable (u : String) : DecidableRel (rankLe u) :=
  fun a b => inferInstanceAs (Decidable (_ ≤ _))

/-- `ultraIntelligentRanking` (part_001 lines 1295–1314): JS
`Array.prototype.sort`, stable since ECMAScript 2019, with the comparator
above; modelled as the stable insertion sort under `rankLe` (the unique
output that is a permutation of the input, sorted for the comparator and
stable, which is what the JS engine produces for a consistent comparator). -/
def ultraIntelligentRanking (links : List Link) (searchUsername : String) : List Link :=
  links.insertionSort (rankLe searchUsername)

/-- The four comparator keys of a link, in tie-break order. -/
def rankKey (searchUsername : String) (l : Link) : Bool × ℚ × Int × Nat :=
  (exactNameMatch searchUsername l, l.confidence, firstSourceScore l, sourceCount l)

/-- The ranking contract as §4.6 of the specification words it: exact
identifier match first, then descending confidence, then descending source
popularity, then descending corroboration count. -/
def specRankLe (searchUsername : String) (a b : Link) : Prop :=
  (exactNameMatch searchUsername a = true ∧ exactNameMatch searchUsername b = false) ∨
    (exactNameMatch searchUsername a = exactNameMatch searchUsername b ∧
      (b.confidence < a.confidence ∨ (a.confidence = b.confidence ∧
        (firstSourceScore b < firstSourceScore a ∨
          (firstSourceScore a = firstSourceScore b ∧ sourceCount b ≤ sourceCount a)))))

/-! ## Pipeline composition (part_001 lines 286–312) -/

/-- `enrichMetadata` (part_001 lines 1316–1327) writes only the
`metadata.enrichment` block (timestamps, quality score, recommendation
text), none of which is a modelled field; on the modelled fields it is the
identity. -/
def enrichMetadata (links : List Link) (searchUsername : String) : List Link := links

/-- Steps 2–6 of `ultraIntelligentProcessing` (part_001 lines 286–312), the
post-extraction pipeline: deduplication, scoring, quality filtering,
enrichment, final ranking. (Step 1, raw-text link extraction, produces the
`links` input.) -/
def postExtractionProcessing (links : List Link) (username : String) : List Link :=
  let deduplicatedLinks := ultraIntelligentDeduplication links
  let scoredLinks := ultraAdvancedScoring deduplicatedLinks username
  let highQualityLinks := ultraQualityFilter scoredLinks username
  let enrichedLinks := enrichMetadata highQualityLinks username
  ultraIntelligentRanking enrichedLinks username

/-! ## searchWithAdvancedOptions (part_001 lines 1744–1809) -/

/-- The recognized option fields of `searchWithAdvancedOptions` that shape
the result list, with the source's destructuring defaults. -/
structure SearchOptions where
  useCache : Bool := true
  maxResults : Nat := 1000
  minConfidence : ℚ := 0
  subredditFilter : Option String := none
deriving DecidableEq, Repr

/-- The response assembled at part_001 lines 1783–1791 (the modelled part:
the shaped result list and `metadata.totalFound`). -/
structure AdvancedSearchResponse where
  results : List Link
  totalFound : Nat
deriving DecidableEq, Repr

deriving instance DecidableEq for Except

/-- The result shaping of `searchWithAdvancedOptions` (part_001 lines
1744–1809) on the raw pipeline output `rawResults` (the value of
`searchTelegramGroupsUltraExhaustive`): filter by `confidence >=
minConfidence`, optionally by subreddit, then `slice(0, maxResults)`.
The source performs no option validation whatsoever — it destructures
`options` with defaults and proceeds; the `Except` result type records that
the function has no synchronous validation-error exit: every call returns
`Except.ok`. -/
def searchWithAdvancedOptions (rawResults : List Link) (options : SearchOptions) :
    Except String AdvancedSearchResponse :=
  let filteredResults := rawResults.filter fun r => decide (options.minConfidence ≤ r.confidence)
  let filteredResults := match options.subredditFilter with
    | some sub => filteredResults.filter fun (r : Link) => jsIncludes r.redditSource.foundIn sub
    | none => filteredResults
  let filteredResults := filteredResults.take options.maxResults
  Except.ok { results := filteredResults, totalFound := filteredResults.length }

/-! ## Variation generation (part_001 lines 1069–1126) -/

/-- JS `s.replace(/_/g, r)` where `r` has no underscore: every underscore
becomes the characters `r`. -/
def replaceUnderscoresWith (s : String) (r : List Char) : String :=
  String.mk (s.toList.flatMap fun c => if c = '_' then r else [c])

/-- Does the string end in a digit (JS `/\d+$/.test(s)`)? -/
def endsWithDigit (s : String) : Bool :=
  match s.toList.getLast? with
  | some c => c.isDigit
  | none => false

/-- JS `s.replace(/\d+$/, '')`: drop the maximal trailing digit run. -/
def stripTrailingDigits (s : String) : String :=
  String.mk ((s.toList.reverse.dropWhile Char.isDigit).reverse)

/-- The separator-insertion loop (part_001 lines 1086–1089): for each inner
position an underscore variant then a hyphen variant. -/
def separatorInsertions (original : String) : List String :=
  (List.range' 1 (original.length - 1)).flatMap fun i =>
    [String.mk (original.toList.take i ++ '_' :: original.toList.drop i),
     String.mk (original.toList.take i ++ '-' :: original.toList.drop i)]

/-- The numeric sweep (part_001 lines 1093–1102): suffixes 0–20 appended to
the digit-stripped base when the name ends in digits, else to the name. -/
def numericSweep (original : String) : List String :=
  if endsWithDigit original then
    (List.range 21).map fun i => stripTrailingDigits original ++ toString i
  else
    (List.range 21).map fun i => original ++ toString i

/-- The fixed front vocabulary (part_001 line 1105). -/
def frontWords : List String := ["the", "real", "official", "main", "new", "crypto", "btc"]

/-- The fixed tail vocabulary (part_001 line 1106). -/
def tailWords : List String := ["official", "real", "main", "channel", "group", "bot"]

/-- The truncation loop (part_001 lines 1119–1121):
`original.slice(0, len)` for `len` from `max(3, length − 3)` to
`length − 1`. -/
def truncationVariants (original : String) : List String :=
  let start := max 3 (original.length - 3)
  (List.range' start (original.length - start)).map fun len =>
    String.mk (original.toList.take len)

/-- JS `Set` insertion order: keep the first occurrence of each element. -/
def dedupKeepFirst (l : List String) : List String :=
  l.foldl (fun acc s => if s ∈ acc then acc else acc ++ [s]) []

/-- `generateMassiveVariations` (part_001 lines 1069–1126): case variants,
separator variants, the numeric sweep, front/tail vocabulary combinations
and truncations, collected into a `Set` in insertion order, filtered to
lengths 3–35 and capped at 100. -/
def generateMassiveVariations (username : String) : List String :=
  let original := jsToLower username
  let base := [original, jsToUpper username, capitalizeFirst username]
  let seps :=
    if jsIncludes original "_" then
      [replaceUnderscoresWith original [], replaceUnderscoresWith original ['-'],
       replaceUnderscoresWith original ['.']]
    else
      [original ++ "_", original ++ "-"] ++ separatorInsertions original
  let nums := numericSweep original
  let fronts := frontWords.flatMap fun p => [p ++ original, p ++ "_" ++ original]
  let tails := tailWords.flatMap fun s => [original ++ s, original ++ "_" ++ s]
  let truncs := truncationVariants original
  let all := base ++ seps ++ nums ++ fronts ++ tails ++ truncs
  ((dedupKeepFirst all).filter fun v => decide (3 ≤ v.length) && decide (v.length ≤ 35)).take 100

/-! ## Concrete sample data used to instantiate the theorems -/

def srcA : RedditSource :=
  { postUrl := "https://reddit.com/r/tg/a", postTitle := "first post",
    subreddit := "tg", redditScore := 3, foundIn := "r/tg" }

def srcB : RedditSource :=
  { postUrl := "https://reddit.com/r/tg/b", postTitle := "second post",
    subreddit := "tg", redditScore := 7, foundIn := "r/tg" }

def srcC : RedditSource :=
  { postUrl := "https://reddit.com/r/crypto/c", postTitle := "third post",
    subreddit := "crypto", redditScore := 1, foundIn := "r/crypto" }

def srcD : RedditSource :=
  { postUrl := "https://reddit.com/r/crypto/d", postTitle := "fourth post",
    subreddit := "crypto", redditScore := 2, foundIn := "r/crypto" }

/-- A quality candidate: confidence 80, a valid five-plus-character name. -/
def demoLink : Link :=
  { url := "https://t.me/goodname", username := "goodname", confidence := 80,
    searchMethod := "direct_extraction", isInviteLink := false,
    redditSource := srcA, mergedSources := [] }

/-- A low-confidence candidate sharing nothing with `demoLink`. -/
def lowLink : Link :=
  { url := "https://t.me/weakname", username := "weakname", confidence := 10,
    searchMethod := "inference", isInviteLink := false,
    redditSource := srcB, mergedSources := [] }

/-- A fresh candidate for `t.me/samplechan` with a single provenance entry. -/
def residentLink : Link :=
  { url := "t.me/samplechan", username := "samplechan", confidence := 50,
    searchMethod := "direct_extraction", isInviteLink := false,
    redditSource := srcA, mergedSources := [] }

/-- A higher-confidence candidate for the same normalized URL as
`residentLink` that already carries two merged provenance entries. -/
def accumulatedLink : Link :=
  { url := "https://t.me/SampleChan/", username := "samplechan", confidence := 60,
    searchMethod := "pattern_match", isInviteLink := false,
    redditSource := srcB, mergedSources := [srcC, srcD] }

/-- Same normalized URL as `residentLink`, same confidence, fresh provenance. -/
def tiedLink : Link :=
  { url := "https://www.t.me/samplechan", username := "samplechan", confidence := 50,
    searchMethod := "reverse_search", isInviteLink := false,
    redditSource := srcC, mergedSources := [] }

/-! # Theorems -/

/-! ## Clamp and similarity bounds -/

theorem clampConfidence_nonneg (c : ℚ) : 0 ≤ clampConfidence c :=
  le_min (le_max_right c 0) (by norm_num)

theorem clampConfidence_le (c : ℚ) : clampConfidence c ≤ 100 :=
  min_le_right _ _

theorem calculateUsernameSimilarity_nonneg (a b : String) :
    0 ≤ calculateUsernameSimilarity a b := by
  simp only [calculateUsernameSimilarity]
  split_ifs with h1 h2
  · norm_num
  · norm_num
  · exact le_max_left 0 _

theorem calculateUsernameSimilarity_le_one (a b : String) :
    calculateUsernameSimilarity a b ≤ 1 := by
  simp only [calculateUsernameSimilarity]
  split_ifs with h1 h2
  · norm_num
  · norm_num
  · refine max_le (by norm_num) ?_
    refine div_le_one_of_le₀ ?_ (Nat.cast_nonneg _)
    have hd : (0 : ℚ) ≤ (levenshteinDistance (jsToLower a).toList (jsToLower b).toList : ℚ) :=
      Nat.cast_nonneg _
    linarith

/-! ## C6: the quality filter keeps exactly the spec's candidates -/

/-- C6. For every input list, `ultraQualityFilter` returns exactly those
input candidates whose confidence is at least 30, whose username has length
at least 5, whose username is not in the common-word stoplist and not in the
suspicious list — as one `List.filter`, so input order is preserved. The
source's extra falsy-username check (`!link.username`) is subsumed by the
length bound, since the empty string has length 0. -/
theorem spec2proof_c6 (links : List Link) (searchUsername : String) :
    ultraQualityFilter links searchUsername = links.filter specQualityPred := by
  unfold ultraQualityFilter
  apply List.filter_congr
  intro l _
  unfold specQualityPred
  by_cases h1 : l.confidence < 30
  · have : ¬ (30 ≤ l.confidence) := not_le.mpr h1
    simp [h1, this]
  · have h1' : (30 : ℚ) ≤ l.confidence := not_lt.mp h1
    by_cases h2 : l.username = "" ∨ l.username.length < 5
    · have : ¬ (5 ≤ l.username.length) := by
        rcases h2 with h2 | h2
        · rw [h2]; decide
        · omega
      simp [h1, h1', h2, this]
    · push_neg at h2
      have h2' : 5 ≤ l.username.length := h2.2
      by_cases h3 : isCommonWord l.username
      · simp [h1, h1', h2.1, h2.2, h2', h3]
      · by_cases h4 : isSuspiciousUsername l.username
        · simp [h1, h1', h2.1, h2.2, h2', h3, h4]
        · simp [h1, h1', h2.1, h2.2, h2', h3, h4]

/-! ## C7: minConfidence and maxResults are enforced on the returned results -/

/-- C7. Every run of `searchWithAdvancedOptions` returns only candidates
with confidence at least `options.minConfidence`, and at most
`options.maxResults` of them: the body filters by
`r.confidence >= minConfidence` before slicing to `maxResults`. -/
theorem spec2proof_c7 (rawResults : List Link) (options : SearchOptions)
    (resp : AdvancedSearchResponse)
    (h : searchWithAdvancedOptions rawResults options = Except.ok resp) :
    (∀ l ∈ resp.results, options.minConfidence ≤ l.confidence) ∧
      resp.results.length ≤ options.maxResults := by
  unfold searchWithAdvancedOptions at h
  rw [Except.ok.injEq] at h
  subst h
  constructor
  · intro l hl
    have h1 := (List.take_sublist _ _).subset hl
    have h2 : l ∈ rawResults.filter fun r => decide (options.minConfidence ≤ r.confidence) := by
      cases hsub : options.subredditFilter with
      | none => rw [hsub] at h1; exact h1
      | some sub => rw [hsub] at h1; exact (List.filter_sublist _).subset h1
    exact of_decide_eq_true (List.mem_filter.mp h2).2
  · exact List.length_take_le _ _

theorem spec2proof_c7_witness :
    (∀ l ∈ (AdvancedSearchResponse.mk [demoLink] 1).results,
      (SearchOptions.mk true 5 50 none).minConfidence ≤ l.confidence) ∧
      (AdvancedSearchResponse.mk [demoLink] 1).results.length ≤
        (SearchOptions.mk true 5 50 none).maxResults :=
  spec2proof_c7 [demoLink, lowLink] (SearchOptions.mk true 5 50 none)
    (AdvancedSearchResponse.mk [demoLink] 1) (by with_unfolding_all decide)

/-! ## C4: out-of-range options are not rejected -/

/-- C4 counterexample. Calling the entry point with
`options.minConfidence = 101` or `options.maxResults = 0` is NOT rejected
with a validation error: both calls complete normally (an `Except.ok`
response, never an error) with an empty results list. -/
theorem spec2proof_c4_counterexample :
    searchWithAdvancedOptions [demoLink] { minConfidence := 101 } =
      Except.ok { results := [], totalFound := 0 } ∧
    searchWithAdvancedOptions [demoLink] { maxResults := 0 } =
      Except.ok { results := [], totalFound := 0 } := by
  constructor <;> with_unfolding_all decide

/-- C4 as amended. `searchWithAdvancedOptions` performs no option
validation: with `minConfidence = 101` the run still proceeds over the raw
results and returns a normal (`Except.ok`) response whose results list is
empty, because every pipeline confidence is at most 100; with
`maxResults = 0` it likewise returns a normal response with an empty
results list, because the final slice keeps zero entries. No structured
validation error is ever produced. -/
theorem spec2proof_c4_amended (raw raw2 : List Link) (options options2 : SearchOptions)
    (hconf : ∀ l ∈ raw, l.confidence ≤ 100)
    (h101 : options.minConfidence = 101) (hzero : options2.maxResults = 0) :
    searchWithAdvancedOptions raw options = Except.ok { results := [], totalFound := 0 } ∧
    searchWithAdvancedOptions raw2 options2 = Except.ok { results := [], totalFound := 0 } := by
  constructor
  · unfold searchWithAdvancedOptions
    have hfil : (raw.filter fun r => decide (options.minConfidence ≤ r.confidence)) = [] := by
      rw [List.filter_eq_nil_iff]
      intro a ha
      rw [decide_eq_true_eq, h101]
      intro hle
      have := hconf a ha
      linarith
    rw [hfil]
    cases options.subredditFilter <;> simp
  · unfold searchWithAdvancedOptions
    rw [hzero]
    cases options2.subredditFilter <;> simp

theorem spec2proof_c4_witness :
    searchWithAdvancedOptions [demoLink] { minConfidence := 101 } =
      Except.ok { results := [], totalFound := 0 } ∧
    searchWithAdvancedOptions [lowLink] { maxResults := 0 } =
      Except.ok { results := [], totalFound := 0 } :=
  spec2proof_c4_amended [demoLink] [lowLink] { minConfidence := 101 } { maxResults := 0 }
    (by with_unfolding_all decide) rfl rfl

/-! ## C2: provenance accumulation during merges -/

/-- C2 counterexample. `residentLink` carries 1 provenance entry,
`accumulatedLink` carries 3, the two provenance lists are disjoint, and the
two candidates share a normalized URL; yet deduplicating the two leaves a
single survivor with only 2 provenance entries — less than max(1, 3) and
less than 1 + 3 — because the merge overwrites the incoming winner's own
merged sources, dropping `accumulatedLink`'s two accumulated entries. -/
theorem spec2proof_c2_counterexample :
    normKey residentLink = normKey accumulatedLink ∧
    (provenance residentLink).length = 1 ∧
    (provenance accumulatedLink).length = 3 ∧
    (provenance residentLink).inter (provenance accumulatedLink) = [] ∧
    (ultraIntelligentDeduplication [residentLink, accumulatedLink]).map
      (fun l => (provenance l).length) = [2] ∧
    ¬ (max (provenance residentLink).length (provenance accumulatedLink).length ≤ 2) ∧
    ¬ ((2 : Nat) = 1 + 3) := by
  refine ⟨?_, ?_, ?_, ?_, ?_, ?_, ?_⟩ <;> with_unfolding_all decide

/-- C2 as amended. When the incoming candidate of a merge carries a single
provenance entry (its own source record and no previously merged sources —
the only shape the extraction stage produces), the survivor's provenance is
exactly the resident's provenance plus the incoming entry: no resident
provenance entry is dropped, the sizes add up (m + n), and the survivor's
provenance is at least as large as either input's. An incoming candidate
that already carries merged provenance loses those entries (see the
counterexample). -/
theorem spec2proof_c2_amended (existing link : Link) (h : link.mergedSources = []) :
    (provenance (mergeLinks existing link)).Perm
      (link.redditSource :: provenance existing) ∧
    (provenance (mergeLinks existing link)).length =
      (provenance existing).length + (provenance link).length ∧
    max (provenance existing).length (provenance link).length ≤
      (provenance (mergeLinks existing link)).length := by
  have hperm : (provenance (mergeLinks existing link)).Perm
      (link.redditSource :: provenance existing) := by
    unfold mergeLinks provenance
    split_ifs with hc
    · exact List.Perm.cons _ (List.perm_append_singleton _ _)
    · exact (List.Perm.cons _ (List.perm_append_singleton _ _)).trans
        (List.Perm.swap _ _ _)
  have hlen := hperm.length_eq
  refine ⟨hperm, ?_, ?_⟩
  · simp only [provenance, List.length_cons, h, List.length_nil] at hlen ⊢
    omega
  · simp only [provenance, List.length_cons, h, List.length_nil] at hlen ⊢
    omega

theorem spec2proof_c2_witness :
    (provenance (mergeLinks residentLink tiedLink)).Perm
      (tiedLink.redditSource :: provenance residentLink) ∧
    (provenance (mergeLinks residentLink tiedLink)).length =
      (provenance residentLink).length + (provenance tiedLink).length ∧
    max (provenance residentLink).length (provenance tiedLink).length ≤
      (provenance (mergeLinks residentLink tiedLink)).length :=
  spec2proof_c2_amended residentLink tiedLink rfl

/-! ## C10: equal-confidence collisions keep the earlier candidate -/

/-- C10. The deduplicator's confidence comparison is strict: on a collision
with equal confidences the resident (earlier) candidate survives unchanged
except that the later candidate's own source record is appended to its
merged sources; in particular deduplicating two equal-confidence candidates
with the same normalized URL returns exactly the earlier one with the
later's provenance entry appended. (The fold itself is a pure function, so
for every fixed input order the output is uniquely determined.) -/
theorem spec2proof_c10 (existing link a b : Link)
    (hconf : existing.confidence = link.confidence)
    (hkey : normKey a = normKey b) (hconf2 : a.confidence = b.confidence) :
    mergeLinks existing link =
      { existing with mergedSources := existing.mergedSources ++ [link.redditSource] } ∧
    ultraIntelligentDeduplication [a, b] =
      [{ a with mergedSources := a.mergedSources ++ [b.redditSource] }] := by
  have hmergeAB : mergeLinks a b =
      { a with mergedSources := a.mergedSources ++ [b.redditSource] } := by
    unfold mergeLinks
    rw [if_neg (by rw [hconf2]; exact lt_irrefl _)]
  constructor
  · unfold mergeLinks
    rw [if_neg (by rw [hconf]; exact lt_irrefl _)]
  · have hf : findLink (normKey b) [(normKey a, a)] = some a := by
      unfold findLink
      rw [if_pos hkey]
    have hs : setLink (normKey b) (mergeLinks a b) [(normKey a, a)] =
        [(normKey b, mergeLinks a b)] := by
      unfold setLink
      rw [if_pos hkey]
    have h1 : [a, b].foldl dedupeStep [] = [(normKey b, mergeLinks a b)] := by
      show dedupeStep (dedupeStep [] a) b = _
      rw [show dedupeStep [] a = [(normKey a, a)] from rfl]
      show (match findLink (normKey b) [(normKey a, a)] with
        | some existing => setLink (normKey b) (mergeLinks existing b) [(normKey a, a)]
        | none => [(normKey a, a)] ++ [(normKey b, b)]) = _
      rw [hf]
      exact hs
    unfold ultraIntelligentDeduplication
    rw [h1, hmergeAB]
    rfl

theorem spec2proof_c10_witness :
    mergeLinks residentLink tiedLink =
      { residentLink with
        mergedSources := residentLink.mergedSources ++ [tiedLink.redditSource] } ∧
    ultraIntelligentDeduplication [residentLink, tiedLink] =
      [{ residentLink with
        mergedSources := residentLink.mergedSources ++ [tiedLink.redditSource] }] :=
  spec2proof_c10 residentLink tiedLink residentLink tiedLink rfl
    (by with_unfolding_all decide) rfl

/-! ## C3: confidence stays in [0, 100] at every stage -/

theorem calculateBasicConfidence_bounds (data : PostData) :
    0 ≤ calculateBasicConfidence data ∧ calculateBasicConfidence data ≤ 100 := by
  show 0 ≤ clampConfidence _ ∧ clampConfidence _ ≤ 100
  exact ⟨clampConfidence_nonneg _, clampConfidence_le _⟩

theorem calculateAdvancedConfidence_bounds (eu : String) (ss : Int) (su : String)
    (pIdx : Nat) :
    0 ≤ calculateAdvancedConfidence eu ss su pIdx ∧
      calculateAdvancedConfidence eu ss su pIdx ≤ 100 := by
  show 0 ≤ clampConfidence _ ∧ clampConfidence _ ≤ 100
  exact ⟨clampConfidence_nonneg _, clampConfidence_le _⟩

theorem scoreLink_confidence_bounds (u : String) (l : Link) :
    0 ≤ (scoreLink u l).confidence ∧ (scoreLink u l).confidence ≤ 100 := by
  show 0 ≤ clampConfidence _ ∧ clampConfidence _ ≤ 100
  exact ⟨clampConfidence_nonneg _, clampConfidence_le _⟩

/-- C3. Every scoring function clamps its result into [0, 100]
(`calculateBasicConfidence`, `calculateAdvancedConfidence`, and every
candidate coming out of `ultraAdvancedScoring`), and the stages after
scoring — quality filter, enrichment and ranking — never move a confidence:
when every input candidate is within bounds, so is every candidate they
emit. -/
theorem spec2proof_c3 (data : PostData) (eu su : String) (ss : Int) (pIdx : Nat)
    (scLinks : List Link) (su2 : String) (x : Link)
    (links : List Link) (u : String) (y : Link)
    (hx : x ∈ ultraAdvancedScoring scLinks su2)
    (hl : ∀ z ∈ links, 0 ≤ z.confidence ∧ z.confidence ≤ 100)
    (hy : y ∈ ultraIntelligentRanking (enrichMetadata (ultraQualityFilter links u) u) u) :
    (0 ≤ calculateBasicConfidence data ∧ calculateBasicConfidence data ≤ 100) ∧
    (0 ≤ calculateAdvancedConfidence eu ss su pIdx ∧
      calculateAdvancedConfidence eu ss su pIdx ≤ 100) ∧
    (0 ≤ x.confidence ∧ x.confidence ≤ 100) ∧
    (0 ≤ y.confidence ∧ y.confidence ≤ 100) := by
  refine ⟨calculateBasicConfidence_bounds data,
    calculateAdvancedConfidence_bounds eu ss su pIdx, ?_, ?_⟩
  · obtain ⟨z, hz, rfl⟩ := List.mem_map.mp hx
    exact scoreLink_confidence_bounds su2 z
  · have h1 : y ∈ enrichMetadata (ultraQualityFilter links u) u :=
      (List.mem_insertionSort _).mp hy
    have h2 : y ∈ links := List.mem_of_mem_filter h1
    exact hl y h2

theorem spec2proof_c3_witness :
    (0 ≤ calculateBasicConfidence (PostData.mk 12 6 "telegramgroups") ∧
      calculateBasicConfidence (PostData.mk 12 6 "telegramgroups") ≤ 100) ∧
    (0 ≤ calculateAdvancedConfidence "goodname" 60 "goodname" 2 ∧
      calculateAdvancedConfidence "goodname" 60 "goodname" 2 ≤ 100) ∧
    (0 ≤ (scoreLink "goodname" demoLink).confidence ∧
      (scoreLink "goodname" demoLink).confidence ≤ 100) ∧
    (0 ≤ demoLink.confidence ∧ demoLink.confidence ≤ 100) :=
  spec2proof_c3 (PostData.mk 12 6 "telegramgroups") "goodname" "goodname" 60 2
    [demoLink] "goodname" (scoreLink "goodname" demoLink) [demoLink] "goodname" demoLink
    (by simp [ultraAdvancedScoring])
    (by with_unfolding_all decide)
    (by with_unfolding_all decide)

/-! ## C9: the variation generator is bounded, duplicate-free and length-capped -/

theorem dedupKeepFirst_nodup (l : List String) : (dedupKeepFirst l).Nodup := by
  suffices h : ∀ acc : List String, acc.Nodup →
      (l.foldl (fun acc s => if s ∈ acc then acc else acc ++ [s]) acc).Nodup from
    h [] List.nodup_nil
  induction l with
  | nil => intro acc h; exact h
  | cons s l ih =>
    intro acc h
    show (l.foldl _ (if s ∈ acc then acc else acc ++ [s])).Nodup
    by_cases hs : s ∈ acc
    · rw [if_pos hs]; exact ih acc h
    · rw [if_neg hs]
      refine ih _ ?_
      rw [(List.perm_append_singleton s acc).nodup_iff, List.nodup_cons]
      exact ⟨hs, h⟩

/-- C9. For every identifier of length at least 3,
`generateMassiveVariations` terminates (it is a total function of this
model) and returns a duplicate-free list of at most 100 variations, each of
length between 3 and 35. -/
theorem spec2proof_c9 (username : String) (h : 3 ≤ username.length) :
    (generateMassiveVariations username).Nodup ∧
    (generateMassiveVariations username).length ≤ 100 ∧
    ∀ v ∈ generateMassiveVariations username, 3 ≤ v.length ∧ v.length ≤ 35 := by
  unfold generateMassiveVariations
  refine ⟨?_, ?_, ?_⟩
  · exact (List.take_sublist _ _).nodup ((dedupKeepFirst_nodup _).filter _)
  · exact List.length_take_le _ _
  · intro v hv
    have h1 := (List.mem_filter.mp ((List.take_sublist _ _).subset hv)).2
    rw [Bool.and_eq_true, decide_eq_true_eq, decide_eq_true_eq] at h1
    exact h1

theorem spec2proof_c9_witness :
    (generateMassiveVariations "crypto").Nodup ∧
    (generateMassiveVariations "crypto").length ≤ 100 ∧
    ∀ v ∈ generateMassiveVariations "crypto", 3 ≤ v.length ∧ v.length ≤ 35 :=
  spec2proof_c9 "crypto" (by decide)

/-! ## C1: normalized-URL uniqueness after deduplication -/

theorem findLink_eq_none_iff (key : String) (acc : List (String × Link))
    (h : findLink key acc = none) : ∀ kv ∈ acc, kv.1 ≠ key := by
  induction acc with
  | nil => intro kv hkv; cases hkv
  | cons hd tl ih =>
    intro kv hkv
    unfold findLink at h
    by_cases hh : hd.1 = key
    · rw [if_pos hh] at h; cases h
    · rw [if_neg hh] at h
      rcases List.mem_cons.mp hkv with rfl | hkv
      · exact hh
      · exact ih h kv hkv

theorem findLink_eq_some_mem (key : String) (acc : List (String × Link)) (e : Link)
    (h : findLink key acc = some e) : (key, e) ∈ acc := by
  induction acc with
  | nil => cases h
  | cons hd tl ih =>
    unfold findLink at h
    by_cases hh : hd.1 = key
    · rw [if_pos hh] at h
      rw [Option.some.injEq] at h
      have h3 : hd = (key, e) := by
        rw [Prod.ext_iff]
        exact ⟨hh, h⟩
      exact List.mem_cons.mpr (Or.inl h3.symm)
    · rw [if_neg hh] at h
      exact List.mem_cons.mpr (Or.inr (ih h))

theorem setLink_map_fst (key : String) (v : Link) (acc : List (String × Link))
    (h : key ∈ acc.map Prod.fst) :
    (setLink key v acc).map Prod.fst = acc.map Prod.fst := by
  induction acc with
  | nil => cases h
  | cons hd tl ih =>
    unfold setLink
    by_cases hh : hd.1 = key
    · rw [if_pos hh]
      simp [hh]
    · rw [if_neg hh]
      rw [List.map_cons, List.map_cons, ih]
      rcases List.mem_cons.mp h with h1 | h1
      · exact absurd h1.symm hh
      · exact h1

theorem setLink_mem (key : String) (v : Link) (acc : List (String × Link))
    (kv : String × Link) (h : kv ∈ setLink key v acc) : kv = (key, v) ∨ kv ∈ acc := by
  induction acc with
  | nil =>
    unfold setLink at h
    rcases List.mem_singleton.mp h with rfl
    exact Or.inl rfl
  | cons hd tl ih =>
    unfold setLink at h
    by_cases hh : hd.1 = key
    · rw [if_pos hh] at h
      rcases List.mem_cons.mp h with rfl | h
      · exact Or.inl rfl
      · exact Or.inr (List.mem_cons_of_mem _ h)
    · rw [if_neg hh] at h
      rcases List.mem_cons.mp h with rfl | h
      · exact Or.inr (List.mem_cons_self _ _)
      · rcases ih h with h1 | h1
        · exact Or.inl h1
        · exact Or.inr (List.mem_cons_of_mem _ h1)

/-- The invariant of the deduplication fold: the map's keys are distinct and
every stored link's normalized key is its map key. -/
def GoodAcc (acc : List (String × Link)) : Prop :=
  (acc.map Prod.fst).Nodup ∧ ∀ kv ∈ acc, normKey kv.2 = kv.1

theorem mergeLinks_normKey (e l : Link) :
    normKey (mergeLinks e l) = normKey e ∨ normKey (mergeLinks e l) = normKey l := by
  unfold mergeLinks
  split_ifs
  · exact Or.inr rfl
  · exact Or.inl rfl

theorem dedupeStep_good (acc : List (String × Link)) (link : Link)
    (h : GoodAcc acc) : GoodAcc (dedupeStep acc link) := by
  have hstep : dedupeStep acc link = match findLink (normKey link) acc with
      | some e => setLink (normKey link) (mergeLinks e link) acc
      | none => acc ++ [(normKey link, link)] := rfl
  rw [hstep]
  cases hf : findLink (normKey link) acc with
  | none =>
    show GoodAcc (acc ++ [(normKey link, link)])
    constructor
    · rw [List.map_append]
      refine ((List.perm_append_singleton _ _).nodup_iff).mpr ?_
      rw [List.nodup_cons]
      refine ⟨?_, h.1⟩
      intro hmem
      obtain ⟨kv, hkv, hEq⟩ := List.mem_map.mp hmem
      exact findLink_eq_none_iff _ _ hf kv hkv hEq
    · intro kv hkv
      rcases List.mem_append.mp hkv with h1 | h1
      · exact h.2 kv h1
      · rcases List.mem_singleton.mp h1 with rfl
        rfl
  | some e =>
    show GoodAcc (setLink (normKey link) (mergeLinks e link) acc)
    have hmem := findLink_eq_some_mem _ _ _ hf
    have hkeyE : normKey e = normKey link := h.2 (normKey link, e) hmem
    constructor
    · rw [setLink_map_fst _ _ _ (List.mem_map_of_mem Prod.fst hmem)]
      exact h.1
    · intro kv hkv
      rcases setLink_mem _ _ _ _ hkv with rfl | h1
      · show normKey (mergeLinks e link) = normKey link
        rcases mergeLinks_normKey e link with h2 | h2
        · rw [h2]; exact hkeyE
        · exact h2
      · exact h.2 kv h1

theorem foldl_dedupeStep_good (links : List Link) (acc : List (String × Link))
    (h : GoodAcc acc) : GoodAcc (links.foldl dedupeStep acc) := by
  induction links generalizing acc with
  | nil => exact h
  | cons x l ih => exact ih _ (dedupeStep_good acc x h)

theorem goodAcc_pairwise (acc : List (String × Link)) (h : GoodAcc acc) :
    (acc.map Prod.snd).Pairwise (fun x y => normKey x ≠ normKey y) := by
  rw [List.pairwise_map]
  have h1 : acc.Pairwise (fun x y => x.1 ≠ y.1) := by
    have h2 := h.1
    rw [List.Nodup, List.pairwise_map] at h2
    exact h2
  refine h1.imp_of_mem ?_
  intro a b ha hb hne
  rw [h.2 a ha, h.2 b hb]
  exact hne

theorem dedupe_pairwise_key (links : List Link) :
    (ultraIntelligentDeduplication links).Pairwise (fun a b => normKey a ≠ normKey b) :=
  goodAcc_pairwise _ (foldl_dedupeStep_good links [] ⟨List.nodup_nil, by intro kv h; cases h⟩)

/-- C1. No two candidates returned by `ultraIntelligentDeduplication` share
a normalized URL key (lowercased, scheme, `www.` and trailing slash
stripped), and the property survives to the end of the pipeline: scoring
maps each candidate without touching its URL, the quality filter keeps a
sublist, enrichment is the identity on modelled fields and the ranking is a
permutation. -/
theorem spec2proof_c1 (links : List Link) (username : String) :
    (ultraIntelligentDeduplication links).Pairwise (fun a b => normKey a ≠ normKey b) ∧
    (postExtractionProcessing links username).Pairwise
      (fun a b => normKey a ≠ normKey b) := by
  have hd := dedupe_pairwise_key links
  refine ⟨hd, ?_⟩
  show (ultraIntelligentRanking
    (enrichMetadata (ultraQualityFilter
      (ultraAdvancedScoring (ultraIntelligentDeduplication links) username) username)
      username) username).Pairwise (fun a b => normKey a ≠ normKey b)
  have hs : (ultraAdvancedScoring (ultraIntelligentDeduplication links) username).Pairwise
      (fun a b => normKey a ≠ normKey b) := by
    unfold ultraAdvancedScoring
    rw [List.pairwise_map]
    exact hd
  have hf : (ultraQualityFilter
      (ultraAdvancedScoring (ultraIntelligentDeduplication links) username)
      username).Pairwise (fun a b => normKey a ≠ normKey b) := by
    unfold ultraQualityFilter
    exact List.Pairwise.sublist (List.filter_sublist _) hs
  have hperm : (ultraIntelligentRanking
      (enrichMetadata (ultraQualityFilter
        (ultraAdvancedScoring (ultraIntelligentDeduplication links) username) username)
        username) username).Perm
      (enrichMetadata (ultraQualityFilter
        (ultraAdvancedScoring (ultraIntelligentDeduplication links) username) username)
        username) :=
    List.perm_insertionSort _ _
  exact (hperm.pairwise_iff fun hne => hne.symm).mpr hf

/-! ## C8: the relative magnitudes of the scoring signal classes -/

theorem popularityContribution_le (s : Int) : popularityContribution s ≤ 45 := by
  unfold popularityContribution
  split_ifs <;> norm_num

theorem popularityContribution_attains : popularityContribution 201 = 45 := by
  unfold popularityContribution
  norm_num

theorem similarityContribution_le (a b : String) :
    calculateUsernameSimilarity a b * 30 ≤ 30 := by
  have h := calculateUsernameSimilarity_le_one a b
  have h30 := mul_le_mul_of_nonneg_right h (show (0:ℚ) ≤ 30 by norm_num)
  simpa using h30

theorem similarityContribution_attains :
    calculateUsernameSimilarity "alice" "alice" * 30 = 30 := by
  rw [show calculateUsernameSimilarity "alice" "alice" = 1 from by
    with_unfolding_all rfl]
  norm_num

theorem specializationContribution_le (f : String) :
    specializationContribution f ≤ 40 := by
  simp only [specializationContribution]
  split_ifs <;> norm_num

theorem specializationContribution_attains :
    specializationContribution "telegramcrypto" = 40 := by
  with_unfolding_all decide

theorem methodContribution_le (m : String) : methodContribution m ≤ 20 := by
  unfold methodContribution
  split_ifs <;> norm_num

theorem methodContribution_attains : methodContribution "direct_extraction" = 20 := by
  unfold methodContribution
  rw [if_pos rfl]

/-- C8 counterexample. The claimed relative magnitudes fail on the code:
the popularity tier bonuses can add up to 45, strictly more than the
largest possible similarity contribution (30, attained at an exact match) —
so popularity < similarity is false; and the scam/fake penalty (25) does
not exceed every individual positive bonus: the telegram-subreddit bonus
alone is already 25 and the similarity contribution reaches 30. -/
theorem spec2proof_c8_counterexample :
    popularityContribution 201 = 45 ∧
    calculateUsernameSimilarity "alice" "alice" * 30 = 30 ∧
    ¬ (popularityContribution 201 < calculateUsernameSimilarity "alice" "alice" * 30) ∧
    specializationContribution "telegram" = 25 ∧
    scamFakePenalty = 25 ∧
    ¬ (specializationContribution "telegram" < scamFakePenalty) ∧
    ¬ (calculateUsernameSimilarity "alice" "alice" * 30 < scamFakePenalty) := by
  have h1 := popularityContribution_attains
  have h2 := similarityContribution_attains
  have h3 : specializationContribution "telegram" = 25 := by with_unfolding_all decide
  have h4 : scamFakePenalty = 25 := rfl
  refine ⟨h1, h2, ?_, h3, h4, ?_, ?_⟩
  · rw [h1, h2]; norm_num
  · rw [h3, h4]; norm_num
  · rw [h2, h4]; norm_num

/-- C8 as amended. In `ultraAdvancedScoring` the maximum total contribution
of each signal class is: search-method (pattern-specificity) 20 <
similarity 30 < subreddit specialization 40 < popularity 45 — the reverse
of the claimed chain at both ends; each bound is attained. The scam/fake
penalty of 25 exceeds every search-method bonus but neither the maximal
similarity contribution (30) nor the telegram-subreddit bonus (25). -/
theorem spec2proof_c8_amended (s : Int) (a b f m : String) :
    popularityContribution s ≤ 45 ∧ popularityContribution 201 = 45 ∧
    calculateUsernameSimilarity a b * 30 ≤ 30 ∧
    calculateUsernameSimilarity "alice" "alice" * 30 = 30 ∧
    specializationContribution f ≤ 40 ∧
    specializationContribution "telegramcrypto" = 40 ∧
    methodContribution m ≤ 20 ∧ methodContribution "direct_extraction" = 20 ∧
    ((20:ℚ) < 30 ∧ (30:ℚ) < 40 ∧ (40:ℚ) < 45) ∧
    scamFakePenalty = 25 ∧ contextContribution "scam" = -scamFakePenalty ∧
    methodContribution m < scamFakePenalty ∧
    ¬ (calculateUsernameSimilarity "alice" "alice" * 30 < scamFakePenalty) := by
  refine ⟨popularityContribution_le s, popularityContribution_attains,
    similarityContribution_le a b, similarityContribution_attains,
    specializationContribution_le f, specializationContribution_attains,
    methodContribution_le m, methodContribution_attains,
    ⟨by norm_num, by norm_num, by norm_num⟩, rfl, ?_, ?_, ?_⟩
  · with_unfolding_all decide
  · have h := methodContribution_le m
    have : scamFakePenalty = 25 := rfl
    rw [this]
    linarith
  · rw [similarityContribution_attains]
    rw [show scamFakePenalty = 25 from rfl]
    norm_num

/-! ## C5: the ranking is a stable four-key sort -/

theorem rankTail_le_iff (a b : Link) :
    ((if a.confidence ≠ b.confidence then b.confidence - a.confidence
      else if firstSourceScore a ≠ firstSourceScore b then
        ((firstSourceScore b - firstSourceScore a : Int) : ℚ)
      else ((sourceCount b : Int) - (sourceCount a : Int) : Int)) ≤ 0) ↔
    (b.confidence < a.confidence ∨ (a.confidence = b.confidence ∧
      (firstSourceScore b < firstSourceScore a ∨
        (firstSourceScore a = firstSourceScore b ∧ sourceCount b ≤ sourceCount a)))) := by
  split_ifs with h1 h2
  · constructor
    · intro h
      exact Or.inl (lt_of_le_of_ne (by linarith) (Ne.symm h1))
    · intro h
      rcases h with h | ⟨h, -⟩
      · linarith
      · exact absurd h h1
  · push_neg at h1
    constructor
    · intro h
      refine Or.inr ⟨h1, Or.inl ?_⟩
      have hcast : (firstSourceScore b - firstSourceScore a : Int) ≤ 0 := by exact_mod_cast h
      omega
    · intro h
      rcases h with h | ⟨-, h⟩
      · rw [h1] at h; exact absurd h (lt_irrefl _)
      · rcases h with h | ⟨h, -⟩
        · have hcast : (firstSourceScore b - firstSourceScore a : Int) ≤ 0 := by omega
          exact_mod_cast hcast
        · exact absurd h h2
  · push_neg at h1 h2
    constructor
    · intro h
      refine Or.inr ⟨h1, Or.inr ⟨h2, ?_⟩⟩
      have hcast : ((sourceCount b : Int) - (sourceCount a : Int)) ≤ 0 := by exact_mod_cast h
      omega
    · intro h
      rcases h with h | ⟨-, h⟩
      · rw [h1] at h; exact absurd h (lt_irrefl _)
      · rcases h with h | ⟨-, h⟩
        · rw [h2] at h; exact absurd h (lt_irrefl _)
        · have hcast : ((sourceCount b : Int) - (sourceCount a : Int)) ≤ 0 := by omega
          exact_mod_cast hcast

/-- The source comparator's "comes no later" relation coincides with the
specification's four sequential tie-break keys. -/
theorem rankLe_iff_spec (u : String) (a b : Link) :
    rankLe u a b ↔ specRankLe u a b := by
  unfold rankLe specRankLe
  simp only [rankComparator]
  cases hA : exactNameMatch u a <;> cases hB : exactNameMatch u b
  · rw [if_neg (by simp), if_neg (by simp), rankTail_le_iff]
    simp
  · rw [if_neg (by simp), if_pos (by simp)]
    norm_num
  · rw [if_pos (by simp)]
    norm_num
  · rw [if_neg (by simp), if_neg (by simp), rankTail_le_iff]
    simp

/-- The rank key packed into a lexicographic order (each component dualized,
since every key sorts descending). -/
def kappa (u : String) (l : Link) : Lex (Boolᵒᵈ × Lex (ℚᵒᵈ × Lex (Intᵒᵈ × Natᵒᵈ))) :=
  toLex (OrderDual.toDual (exactNameMatch u l),
    toLex (OrderDual.toDual l.confidence,
      toLex (OrderDual.toDual (firstSourceScore l), OrderDual.toDual (sourceCount l))))

theorem specRankLe_iff_kappa (u : String) (a b : Link) :
    specRankLe u a b ↔ kappa u a ≤ kappa u b := by
  unfold specRankLe kappa
  rw [Prod.Lex.le_iff]
  simp only [Prod.Lex.le_iff, OrderDual.toDual_lt_toDual, OrderDual.toDual_le_toDual,
    OrderDual.toDual_inj, Bool.lt_iff]
  tauto

theorem rankLe_total (u : String) (a b : Link) : rankLe u a b ∨ rankLe u b a := by
  rw [rankLe_iff_spec, rankLe_iff_spec, specRankLe_iff_kappa, specRankLe_iff_kappa]
  exact le_total _ _

theorem rankLe_trans (u : String) (a b c : Link)
    (h1 : rankLe u a b) (h2 : rankLe u b c) : rankLe u a c := by
  rw [rankLe_iff_spec, specRankLe_iff_kappa] at h1 h2 ⊢
  exact le_trans h1 h2

theorem rankLe_of_key_eq (u : String) (a b : Link) (h : rankKey u a = rankKey u b) :
    rankLe u a b := by
  rw [rankLe_iff_spec, specRankLe_iff_kappa]
  apply le_of_eq
  unfold rankKey at h
  rw [Prod.mk.injEq, Prod.mk.injEq, Prod.mk.injEq] at h
  obtain ⟨e1, e2, e3, e4⟩ := h
  unfold kappa
  rw [e1, e2, e3, e4]

theorem ranking_pairwise_rankLe (links : List Link) (u : String) :
    (ultraIntelligentRanking links u).Pairwise (rankLe u) := by
  haveI : IsTotal Link (rankLe u) := ⟨rankLe_total u⟩
  haveI : IsTrans Link (rankLe u) := ⟨rankLe_trans u⟩
  exact List.sorted_insertionSort (rankLe u) links

theorem filter_orderedInsert_neg {α : Type} (r : α → α → Prop) [DecidableRel r]
    (p : α → Bool) (x : α) (hx : p x = false) (s : List α) :
    (List.orderedInsert r x s).filter p = s.filter p := by
  induction s with
  | nil => simp [List.orderedInsert, List.filter_cons, hx]
  | cons y ys ih =>
    by_cases hr : r x y
    · rw [List.orderedInsert, if_pos hr, List.filter_cons, List.filter_cons]
      simp [hx]
    · rw [List.orderedInsert, if_neg hr, List.filter_cons, List.filter_cons]
      cases hpy : p y <;> simp [hpy, ih]

theorem filter_orderedInsert_pos {α : Type} (r : α → α → Prop) [DecidableRel r]
    (p : α → Bool) (x : α) (hx : p x = true) (hall : ∀ y, p y = true → r x y)
    (s : List α) : (List.orderedInsert r x s).filter p = x :: s.filter p := by
  induction s with
  | nil => simp [List.orderedInsert, List.filter_cons, hx]
  | cons y ys ih =>
    by_cases hr : r x y
    · rw [List.orderedInsert, if_pos hr, List.filter_cons, List.filter_cons]
      simp [hx]
    · have hpy : p y = false := by
        cases hpyc : p y
        · rfl
        · exact absurd (hall y hpyc) hr
      rw [List.orderedInsert, if_neg hr, List.filter_cons, List.filter_cons]
      simp [hpy, ih]

/-- Stability of the insertion sort under `rankLe`: for every value of the
four-key tuple, the sorted list's candidates with that exact key appear in
their original input order. -/
theorem insertionSort_filter_key (u : String) (k : Bool × ℚ × Int × Nat)
    (links : List Link) :
    ((links.insertionSort (rankLe u)).filter fun l => decide (rankKey u l = k)) =
      links.filter fun l => decide (rankKey u l = k) := by
  induction links with
  | nil => rfl
  | cons x l ih =>
    rw [List.insertionSort]
    by_cases hx : rankKey u x = k
    · rw [filter_orderedInsert_pos (rankLe u) _ x (decide_eq_true hx) ?hall, ih,
        List.filter_cons]
      · simp [hx]
      case hall =>
        intro y hy
        have hk : rankKey u y = k := of_decide_eq_true hy
        exact rankLe_of_key_eq u x y (by rw [hx, hk])
    · rw [filter_orderedInsert_neg (rankLe u) _ x (decide_eq_false hx), ih,
        List.filter_cons]
      simp [hx]

/-- C5. `ultraIntelligentRanking` returns a permutation of its input,
ordered under the specification's four sequential tie-break keys (exact
identifier match first, then descending confidence, then descending Reddit
score of the first provenance entry, then descending merged-provenance
count), and stably so: for every key value, the candidates carrying exactly
that key keep their relative input order. -/
theorem spec2proof_c5 (links : List Link) (u : String) (k : Bool × ℚ × Int × Nat) :
    (ultraIntelligentRanking links u).Perm links ∧
    (ultraIntelligentRanking links u).Pairwise (specRankLe u) ∧
    ((ultraIntelligentRanking links u).filter fun l => decide (rankKey u l = k)) =
      links.filter fun l => decide (rankKey u l = k) := by
  refine ⟨List.perm_insertionSort _ _, ?_, insertionSort_filter_key u k links⟩
  exact (ranking_pairwise_rankLe links u).imp fun h => (rankLe_iff_spec u _ _).mp h
